import Mathlib

/-!
# Verification of the cross-cart-app orchestration logic

Shallow embedding of the orchestration code of the repository
(`src/actions/index.ts`, `src/components/wardrobe.tsx`,
`src/app/api/products/search/route.ts`) together with proofs of the
spec's claims about it.

JavaScript numbers are modelled as `JSNum` (a rational for finite values,
plus the non-finite values `nan`, `posInf`, `negInf`); strings as Lean
`String`; thrown exceptions as `Except String`; external services
(Gemini, fetch, the agent runtime) as explicit oracle functions passed in.
-/

/-- A JavaScript `number`: either a finite value (modelled exactly as a
rational) or one of the non-finite values `NaN`, `Infinity`, `-Infinity`. -/
inductive JSNum where
  | finite (q : ℚ)
  | nan
  | posInf
  | negInf
deriving DecidableEq, Repr

/-- `Number.isFinite` on a `JSNum`. -/
def JSNum.isFinite : JSNum → Bool
  | .finite _ => true
  | _ => false

/-- The ten wardrobe slot identifiers (`SlotId` in `src/lib/types`). -/
inductive SlotId where
  | head | chest | waist | legs | feet | ears | neck | bag | hand | ring
deriving DecidableEq, Repr

/-- JavaScript truthiness of a string: the empty string is falsy,
every other string is truthy. -/
def jsTruthyStr (s : String) : Bool := !(s == "")

/-- JavaScript truthiness of an array value: an array object is always
truthy, even when empty. -/
def jsTruthyArr {α : Type} (_ : List α) : Bool := true

/-- `listIsPrefix p l` decides whether `p` is a prefix of `l`
(character-list version of `String.prototype.startsWith`). -/
def listIsPrefix : List Char → List Char → Bool
  | [], _ => true
  | _ :: _, [] => false
  | a :: as, b :: bs => a == b && listIsPrefix as bs

/-- `jsStartsWith s p` is JavaScript `s.startsWith(p)`. -/
def jsStartsWith (s p : String) : Bool := listIsPrefix p.data s.data

/-! ## The capability gate (`canUseTool`, src/actions/index.ts lines 475-486) -/

/-- The decision returned by the agent SDK `canUseTool` callback: either
allow the call with a (possibly updated) input, or deny it with a message.
A denial carries no input, so a denied request is never forwarded. -/
inductive ToolDecision (α : Type) where
  | allow (updatedInput : α)
  | deny (message : String)
deriving DecidableEq, Repr

/-- The `canUseTool` callback installed on the agent run
(src/actions/index.ts lines 475-486): allow, forwarding the input
unchanged, exactly when the tool name starts with `mcp__locus__`;
otherwise deny with the fixed message. -/
def canUseTool {α : Type} (toolName : String) (input : α) : ToolDecision α :=
  if jsStartsWith toolName "mcp__locus__" then
    .allow input
  else
    .deny "Only Locus tools are allowed"

/-- C1: the capability gate allows a tool call with its input forwarded
unchanged iff the tool name starts with `mcp__locus__`; any other name is
denied with the message "Only Locus tools are allowed" (and a denial
carries no input at all). -/
theorem canUseTool_locus_namespace_gate {α : Type} (toolName : String) (input : α) :
    (canUseTool toolName input = .allow input ↔
       jsStartsWith toolName "mcp__locus__" = true) ∧
    (jsStartsWith toolName "mcp__locus__" = false →
       canUseTool toolName input = .deny "Only Locus tools are allowed") := by
  constructor
  · constructor
    · intro h
      unfold canUseTool at h
      by_cases hp : jsStartsWith toolName "mcp__locus__" = true
      · exact hp
      · simp [hp] at h
    · intro hp
      simp [canUseTool, hp]
  · intro hp
    simp [canUseTool, hp]

/-- C1 witness: `mcp__other__delete` is denied with the fixed message and
`mcp__locus__send_to_address` is allowed with its input forwarded
unchanged. -/
theorem canUseTool_locus_namespace_gate_witness :
    canUseTool "mcp__other__delete" (37 : Nat) =
      .deny "Only Locus tools are allowed" ∧
    canUseTool "mcp__locus__send_to_address" (37 : Nat) = .allow 37 := by
  refine ⟨(canUseTool_locus_namespace_gate "mcp__other__delete" 37).2 (by decide), ?_⟩
  exact (canUseTool_locus_namespace_gate "mcp__locus__send_to_address" 37).1.mpr (by decide)

/-! ## Purchase orders (`createPurchaseOrder`, src/actions/index.ts lines 93-119) -/

/-- The fixed, ordered merchant address list
(src/actions/index.ts lines 63-67). -/
def MERCHANT_ADDRESSES : List String :=
  [ "0xd4540357f53ac4beff49acfce8ea1610a158494e"
  , "0xac4db5ac3caae375c0d29bf5c0297caa2c3b4cf7"
  , "0x45a53e361a4c454c7b43e8e089016873a0950e55" ]

/-- A saved product selected into a wardrobe slot
(`SelectedWardrobeItem` in `src/lib/types`). -/
structure SelectedWardrobeItem where
  id : String
  slotId : SlotId
  name : String
  description : Option String
  price : JSNum
  currency : String
  source : String
deriving DecidableEq, Repr

/-- A settlement-plan entry (`PurchaseOrderItem`,
src/actions/index.ts lines 69-79). Finite prices and amounts are
modelled as rationals. -/
structure PurchaseOrderItem where
  id : String
  slotId : SlotId
  name : String
  description : String
  price : ℚ
  currency : String
  source : String
  recipientAddress : String
  sendAmount : ℚ
deriving DecidableEq, Repr

/-- `Number(x.toFixed(2))` for a finite value `x ≥ 0`: round `x` to two
decimal places, ties away from zero (for non-negative values, round half
up: the ECMAScript `toFixed` picks the larger candidate on a tie). -/
def roundTo2 (x : ℚ) : ℚ := (⌊x * 100 + 1 / 2⌋ : ℚ) / 100

/-- The validation and per-item derivation inside the `items.map`
callback of `createPurchaseOrder` (src/actions/index.ts lines 96-117):
reject a non-finite or non-positive price, otherwise derive
`sendAmount = Number((price / 1000).toFixed(2))` and the round-robin
`recipientAddress = MERCHANT_ADDRESSES[index % MERCHANT_ADDRESSES.length]`. -/
def buildPurchaseItem (index : Nat) (item : SelectedWardrobeItem) :
    Except String PurchaseOrderItem :=
  match item.price with
  | .finite q =>
      if q ≤ 0 then
        .error ("Item " ++ item.id ++
          " must include a valid price to purchase through Locus.")
      else
        .ok { id := item.id
            , slotId := item.slotId
            , name := item.name
            , description := item.description.getD ""
            , price := q
            , currency := if jsTruthyStr item.currency then item.currency else "USD"
            , source := item.source
            , recipientAddress :=
                MERCHANT_ADDRESSES.getD (index % MERCHANT_ADDRESSES.length) ""
            , sendAmount := roundTo2 (q / 1000) }
  | _ =>
      .error ("Item " ++ item.id ++
        " must include a valid price to purchase through Locus.")

/-- `createPurchaseOrder` applied from position `index` on: the indexed
`items.map` with a thrown error modelled as `Except.error`, which aborts
the remaining items exactly as a thrown exception does. -/
def createPurchaseOrderFrom (index : Nat) :
    List SelectedWardrobeItem → Except String (List PurchaseOrderItem)
  | [] => .ok []
  | item :: rest => do
      let first ← buildPurchaseItem index item
      let others ← createPurchaseOrderFrom (index + 1) rest
      pure (first :: others)

/-- `createPurchaseOrder` (src/actions/index.ts lines 93-119). -/
def createPurchaseOrder (items : List SelectedWardrobeItem) :
    Except String (List PurchaseOrderItem) :=
  createPurchaseOrderFrom 0 items

/-- An item passes `createPurchaseOrder`'s price validation iff its price
is a finite number strictly greater than zero. -/
def validPrice (item : SelectedWardrobeItem) : Prop :=
  ∃ q : ℚ, item.price = .finite q ∧ 0 < q

instance (item : SelectedWardrobeItem) : Decidable (validPrice item) := by
  unfold validPrice
  match h : item.price with
  | .finite q =>
      exact if hq : 0 < q then .isTrue ⟨q, rfl, hq⟩ else
        .isFalse (fun ⟨r, hr, hr0⟩ => hq (by cases hr; exact hr0))
  | .nan => exact .isFalse (fun ⟨r, hr, _⟩ => by cases hr)
  | .posInf => exact .isFalse (fun ⟨r, hr, _⟩ => by cases hr)
  | .negInf => exact .isFalse (fun ⟨r, hr, _⟩ => by cases hr)

/-- The finite value of a `JSNum` (`0` on the non-finite values, which the
validation rejects before this is ever used). -/
def JSNum.finitePart : JSNum → ℚ
  | .finite q => q
  | _ => 0

/-- The record built for a validated item in the success branch of
`createPurchaseOrder`'s map callback. -/
def purchaseItemOf (index : Nat) (item : SelectedWardrobeItem) : PurchaseOrderItem :=
  { id := item.id
  , slotId := item.slotId
  , name := item.name
  , description := item.description.getD ""
  , price := item.price.finitePart
  , currency := if jsTruthyStr item.currency then item.currency else "USD"
  , source := item.source
  , recipientAddress :=
      MERCHANT_ADDRESSES.getD (index % MERCHANT_ADDRESSES.length) ""
  , sendAmount := roundTo2 (item.price.finitePart / 1000) }

/-- The list `createPurchaseOrder` produces for all-valid items,
starting at position `index`. -/
def purchaseListFrom (index : Nat) : List SelectedWardrobeItem → List PurchaseOrderItem
  | [] => []
  | item :: rest => purchaseItemOf index item :: purchaseListFrom (index + 1) rest

theorem buildPurchaseItem_ok_of_valid (index : Nat) (item : SelectedWardrobeItem)
    (h : validPrice item) :
    buildPurchaseItem index item = .ok (purchaseItemOf index item) := by
  obtain ⟨q, hq, hq0⟩ := h
  simp [buildPurchaseItem, hq, not_le.mpr hq0, purchaseItemOf, JSNum.finitePart]

theorem buildPurchaseItem_error_of_invalid (index : Nat) (item : SelectedWardrobeItem)
    (h : ¬ validPrice item) :
    buildPurchaseItem index item =
      .error ("Item " ++ item.id ++
        " must include a valid price to purchase through Locus.") := by
  unfold buildPurchaseItem
  match hp : item.price with
  | .finite q =>
      have hq : q ≤ 0 := by
        by_contra hq
        exact h ⟨q, hp, not_le.mp hq⟩
      simp [hq]
  | .nan => rfl
  | .posInf => rfl
  | .negInf => rfl

theorem createPurchaseOrderFrom_ok_of_valid (items : List SelectedWardrobeItem) :
    ∀ index : Nat, (∀ item ∈ items, validPrice item) →
    createPurchaseOrderFrom index items = .ok (purchaseListFrom index items) := by
  induction items with
  | nil => intro index _; rfl
  | cons item rest ih =>
      intro index hvalid
      have h1 : buildPurchaseItem index item = .ok (purchaseItemOf index item) :=
        buildPurchaseItem_ok_of_valid index item (hvalid item (by simp))
      have h2 : createPurchaseOrderFrom (index + 1) rest =
          .ok (purchaseListFrom (index + 1) rest) :=
        ih (index + 1) (fun it hit => hvalid it (by simp [hit]))
      simp only [createPurchaseOrderFrom, h1, h2, purchaseListFrom]
      rfl

theorem createPurchaseOrderFrom_error_of_invalid (items : List SelectedWardrobeItem) :
    ∀ index : Nat, (∃ item ∈ items, ¬ validPrice item) →
    ∃ e, createPurchaseOrderFrom index items = .error e := by
  induction items with
  | nil => intro index h; obtain ⟨_, hmem, _⟩ := h; cases hmem
  | cons item rest ih =>
      intro index h
      by_cases hv : validPrice item
      · obtain ⟨bad, hmem, hbad⟩ := h
        have hmem' : bad ∈ rest := by
          cases hmem with
          | head => exact absurd hv hbad
          | tail _ hm => exact hm
        obtain ⟨e, he⟩ := ih (index + 1) ⟨bad, hmem', hbad⟩
        refine ⟨e, ?_⟩
        simp only [createPurchaseOrderFrom,
          buildPurchaseItem_ok_of_valid index item hv, he]
        rfl
      · refine ⟨"Item " ++ item.id ++
          " must include a valid price to purchase through Locus.", ?_⟩
        simp only [createPurchaseOrderFrom,
          buildPurchaseItem_error_of_invalid index item hv]
        rfl

theorem purchaseListFrom_length (items : List SelectedWardrobeItem) :
    ∀ index : Nat, (purchaseListFrom index items).length = items.length := by
  induction items with
  | nil => intro _; rfl
  | cons item rest ih => intro index; simp [purchaseListFrom, ih]

theorem buildPurchaseItem_ok_inv (index : Nat) (item : SelectedWardrobeItem)
    (x : PurchaseOrderItem) (h : buildPurchaseItem index item = .ok x) :
    validPrice item ∧ x = purchaseItemOf index item := by
  unfold buildPurchaseItem at h
  match hp : item.price with
  | .finite q =>
      rw [hp] at h
      by_cases hq : q ≤ 0
      · simp [hq] at h
      · have hv : validPrice item := ⟨q, hp, not_le.mp hq⟩
        refine ⟨hv, ?_⟩
        simp only [hq, if_false] at h
        cases h
        simp [purchaseItemOf, hp, JSNum.finitePart]
  | .nan => rw [hp] at h; cases h
  | .posInf => rw [hp] at h; cases h
  | .negInf => rw [hp] at h; cases h

theorem createPurchaseOrderFrom_mem (items : List SelectedWardrobeItem) :
    ∀ (index : Nat) (l : List PurchaseOrderItem),
      createPurchaseOrderFrom index items = .ok l →
      ∀ x ∈ l, ∃ (i : Nat) (it : SelectedWardrobeItem),
        validPrice it ∧ x = purchaseItemOf i it := by
  induction items with
  | nil =>
      intro index l h x hx
      cases h
      cases hx
  | cons item rest ih =>
      intro index l h x hx
      unfold createPurchaseOrderFrom at h
      cases hb : buildPurchaseItem index item with
      | error e => rw [hb] at h; cases h
      | ok y =>
          rw [hb] at h
          cases hr : createPurchaseOrderFrom (index + 1) rest with
          | error e => rw [hr] at h; cases h
          | ok ys =>
              rw [hr] at h
              have h' : (Except.ok (y :: ys) :
                  Except String (List PurchaseOrderItem)) = .ok l := h
              injection h' with h''
              subst h''
              cases hx with
              | head =>
                  obtain ⟨hv, hy⟩ := buildPurchaseItem_ok_inv index item _ hb
                  exact ⟨index, item, hv, hy⟩
              | tail _ hmem => exact ih (index + 1) ys hr x hmem

theorem purchaseListFrom_get (items : List SelectedWardrobeItem) :
    ∀ (index i : Nat) (h : i < (purchaseListFrom index items).length)
      (h' : i < items.length),
      (purchaseListFrom index items).get ⟨i, h⟩ =
        purchaseItemOf (index + i) (items.get ⟨i, h'⟩) := by
  induction items with
  | nil => intro _ i _ h'; exact absurd h' (by simp)
  | cons item rest ih =>
      intro index i h h'
      cases i with
      | zero => simp [purchaseListFrom]
      | succ j =>
          have hj : j < (purchaseListFrom (index + 1) rest).length := by
            simpa [purchaseListFrom] using h
          have hj' : j < rest.length := by simpa using h'
          have := ih (index + 1) j hj hj'
          simp only [purchaseListFrom, List.get_cons_succ]
          rw [this]
          congr 1
          omega

theorem roundTo2_div1000_nonneg (q : ℚ) (hq : 0 ≤ q) : 0 ≤ roundTo2 (q / 1000) := by
  unfold roundTo2
  have h0 : (0 : ℤ) ≤ ⌊q / 1000 * 100 + 1 / 2⌋ := by
    rw [Int.le_floor]
    push_cast
    linarith
  exact div_nonneg (by exact_mod_cast h0) (by norm_num)

theorem roundTo2_div1000_pos_iff (q : ℚ) : 0 < roundTo2 (q / 1000) ↔ 5 ≤ q := by
  unfold roundTo2
  rw [lt_div_iff₀ (by norm_num : (0 : ℚ) < 100), zero_mul, Int.cast_pos,
    show (0 : ℤ) < ⌊q / 1000 * 100 + 1 / 2⌋ ↔ 1 ≤ ⌊q / 1000 * 100 + 1 / 2⌋ from by omega,
    Int.le_floor]
  constructor
  · intro h
    push_cast at h
    linarith
  · intro h
    push_cast
    linarith

/-- C2 (amended): every item in a successful `createPurchaseOrder` result
has a strictly positive price and `sendAmount = round(price / 1000, 2)`;
this `sendAmount` is always non-negative, but it is strictly positive only
when `price ≥ 5` — a positive price below 5 yields a zero `sendAmount`. -/
theorem createPurchaseOrder_sendAmount_formula
    (items : List SelectedWardrobeItem) (l : List PurchaseOrderItem)
    (hok : createPurchaseOrder items = .ok l) :
    ∀ x ∈ l, 0 < x.price ∧ x.sendAmount = roundTo2 (x.price / 1000) ∧
      0 ≤ x.sendAmount ∧ (0 < x.sendAmount ↔ 5 ≤ x.price) := by
  intro x hx
  obtain ⟨i, it, hv, hxeq⟩ := createPurchaseOrderFrom_mem items 0 l hok x hx
  obtain ⟨q, hq, hq0⟩ := hv
  subst hxeq
  have hprice : (purchaseItemOf i it).price = q := by
    simp [purchaseItemOf, hq, JSNum.finitePart]
  have hsend : (purchaseItemOf i it).sendAmount = roundTo2 (q / 1000) := by
    simp [purchaseItemOf, hq, JSNum.finitePart]
  refine ⟨by rw [hprice]; exact hq0, by rw [hprice, hsend], ?_, ?_⟩
  · rw [hsend]
    exact roundTo2_div1000_nonneg q hq0.le
  · rw [hsend, hprice]
    exact roundTo2_div1000_pos_iff q

/-- C2 witness: a successful order over a single item priced 999 satisfies
the amended invariant, with a strictly positive send amount of 1. -/
theorem createPurchaseOrder_sendAmount_formula_witness :
    ∃ x : PurchaseOrderItem,
      0 < x.price ∧ x.sendAmount = roundTo2 (x.price / 1000) ∧
        0 ≤ x.sendAmount ∧ x.sendAmount = 1 := by
  have hitem : validPrice
      ⟨"board-1", .hand, "Retro surfboard", none, .finite 999, "USD", "surf-co"⟩ :=
    ⟨999, rfl, by norm_num⟩
  have hok : createPurchaseOrder
      [⟨"board-1", .hand, "Retro surfboard", none, .finite 999, "USD", "surf-co"⟩] =
      .ok (purchaseListFrom 0
        [⟨"board-1", .hand, "Retro surfboard", none, .finite 999, "USD", "surf-co"⟩]) :=
    createPurchaseOrderFrom_ok_of_valid _ 0 (by
      intro it hit
      rw [List.mem_singleton] at hit
      rw [hit]
      exact hitem)
  obtain ⟨hpos, hform, hnonneg, _⟩ :=
    createPurchaseOrder_sendAmount_formula _ _ hok
      (purchaseItemOf 0
        ⟨"board-1", .hand, "Retro surfboard", none, .finite 999, "USD", "surf-co"⟩)
      (by simp [purchaseListFrom])
  refine ⟨_, hpos, hform, hnonneg, ?_⟩
  norm_num [purchaseItemOf, JSNum.finitePart, roundTo2]

/-- C2 counterexample: the item priced `0.001` passes validation (its
price is finite and strictly positive), yet the computed `sendAmount` is
exactly 0 — refuting the claim that `sendAmount` is always strictly
greater than zero for positive-price items. -/
theorem createPurchaseOrder_zero_sendAmount_counterexample :
    validPrice
      ⟨"tiny-1", .hand, "Wax pellet", none, .finite (1 / 1000), "USD", "surf-co"⟩ ∧
    createPurchaseOrder
      [⟨"tiny-1", .hand, "Wax pellet", none, .finite (1 / 1000), "USD", "surf-co"⟩] =
      .ok [purchaseItemOf 0
        ⟨"tiny-1", .hand, "Wax pellet", none, .finite (1 / 1000), "USD", "surf-co"⟩] ∧
    (purchaseItemOf 0
      ⟨"tiny-1", .hand, "Wax pellet", none, .finite (1 / 1000), "USD", "surf-co"⟩).sendAmount
      = 0 := by
  have hitem : validPrice
      ⟨"tiny-1", .hand, "Wax pellet", none, .finite (1 / 1000), "USD", "surf-co"⟩ :=
    ⟨1 / 1000, rfl, by norm_num⟩
  refine ⟨hitem, ?_, ?_⟩
  · have hok := createPurchaseOrderFrom_ok_of_valid
      [⟨"tiny-1", .hand, "Wax pellet", none, .finite (1 / 1000), "USD", "surf-co"⟩]
      0 (by
        intro it hit
        rw [List.mem_singleton] at hit
        rw [hit]
        exact hitem)
    simpa [purchaseListFrom] using hok
  · norm_num [purchaseItemOf, JSNum.finitePart, roundTo2]

/-- C3: for a list of equipped items that all carry finite positive
prices, `createPurchaseOrder` succeeds with exactly as many purchase items
as inputs, in input order (position `i` keeps the `id` of input `i`), and
the item at position `i` receives the merchant address at index
`i % MERCHANT_ADDRESSES.length` of the fixed 3-address list — a
position-based round-robin, independent of merchant identity. Being a
pure function of the item list, two calls on the same list always return
this same assignment. -/
theorem createPurchaseOrder_roundRobin_addresses
    (items : List SelectedWardrobeItem)
    (hvalid : ∀ item ∈ items, validPrice item) :
    ∃ l : List PurchaseOrderItem,
      createPurchaseOrder items = .ok l ∧
      l.length = items.length ∧
      MERCHANT_ADDRESSES.length = 3 ∧
      ∀ (i : Nat) (h : i < l.length) (h' : i < items.length),
        (l.get ⟨i, h⟩).recipientAddress =
            MERCHANT_ADDRESSES.getD (i % 3) "" ∧
          (l.get ⟨i, h⟩).id = (items.get ⟨i, h'⟩).id := by
  refine ⟨purchaseListFrom 0 items,
    createPurchaseOrderFrom_ok_of_valid items 0 hvalid,
    purchaseListFrom_length items 0, rfl, ?_⟩
  intro i h h'
  rw [purchaseListFrom_get items 0 i h h']
  constructor
  · simp [purchaseItemOf, MERCHANT_ADDRESSES]
  · simp [purchaseItemOf]

/-- C3 witness: a concrete 4-item order cycles through the three merchant
addresses with period 3 — positions 0 and 3 share the first address. -/
theorem createPurchaseOrder_roundRobin_addresses_witness :
    ∃ l : List PurchaseOrderItem,
      createPurchaseOrder
        [ ⟨"a", .chest, "Jacket", none, .finite 999, "USD", "m1"⟩
        , ⟨"b", .legs, "Jeans", none, .finite 150, "USD", "m1"⟩
        , ⟨"c", .feet, "Boots", none, .finite 200, "USD", "m2"⟩
        , ⟨"d", .head, "Cap", none, .finite 50, "USD", "m3"⟩ ] = .ok l ∧
      l.length = 4 := by
  obtain ⟨l, hok, hlen, -, -⟩ := createPurchaseOrder_roundRobin_addresses
    [ ⟨"a", .chest, "Jacket", none, .finite 999, "USD", "m1"⟩
    , ⟨"b", .legs, "Jeans", none, .finite 150, "USD", "m1"⟩
    , ⟨"c", .feet, "Boots", none, .finite 200, "USD", "m2"⟩
    , ⟨"d", .head, "Cap", none, .finite 50, "USD", "m3"⟩ ]
    (by
      intro it hit
      fin_cases hit
      · exact ⟨999, rfl, by norm_num⟩
      · exact ⟨150, rfl, by norm_num⟩
      · exact ⟨200, rfl, by norm_num⟩
      · exact ⟨50, rfl, by norm_num⟩)
  exact ⟨l, hok, by rw [hlen]; rfl⟩

/-! ## The agent run (`runAgent`, src/actions/index.ts lines 432-527) -/

/-- Result of one `runAgent` invocation: the outcome (a thrown error, or
the captured final success payload — possibly absent when the stream ends
without a terminal success message) together with the number of agent
sessions that were opened during the call. The prompt construction
(pure string formatting over the purchase order, via `Intl.NumberFormat`)
and the `query` stream consumption are absorbed into the agent oracle,
which receives the validated purchase order. -/
structure AgentRunOutcome (β : Type) where
  result : Except String (Option β)
  sessionsOpened : Nat
deriving Repr

/-- `runAgent` (src/actions/index.ts lines 432-527): fail fast on an
empty item list, then validate prices by building the purchase order via
`createPurchaseOrder` — both before the agent session against the Locus
MCP runtime is opened — and only then hand the validated order to the
agent runtime (modelled by the oracle `agent`). -/
def runAgent {β : Type}
    (agent : List PurchaseOrderItem → Except String (Option β))
    (items : List SelectedWardrobeItem) : AgentRunOutcome β :=
  if items.isEmpty then
    ⟨.error "At least one equipped item is required to purchase.", 0⟩
  else
    match createPurchaseOrder items with
    | .error e => ⟨.error e, 0⟩
    | .ok purchaseOrder => ⟨agent purchaseOrder, 1⟩

/-- C4: whenever some input item's price is 0, negative, `NaN` or
infinite, `createPurchaseOrder` fails with the validation error for that
item, and inside `runAgent` this failure surfaces before any agent
session is opened (zero sessions are opened, hence no agent/network
activity begins), for every possible behaviour of the agent runtime. -/
theorem runAgent_invalid_price_fails_before_session {β : Type}
    (agent : List PurchaseOrderItem → Except String (Option β))
    (items : List SelectedWardrobeItem)
    (h : ∃ item ∈ items, ¬ validPrice item) :
    (∃ e, createPurchaseOrder items = .error e) ∧
    (runAgent agent items).sessionsOpened = 0 ∧
    (∃ e, (runAgent agent items).result = .error e) := by
  obtain ⟨e, he⟩ := createPurchaseOrderFrom_error_of_invalid items 0 h
  have hne : items.isEmpty = false := by
    obtain ⟨item, hmem, _⟩ := h
    cases items with
    | nil => cases hmem
    | cons a rest => rfl
  have hrun : runAgent agent items = ⟨.error e, 0⟩ := by
    unfold runAgent
    rw [hne]
    simp only [Bool.false_eq_true, if_false]
    rw [show createPurchaseOrder items = .error e from he]
  exact ⟨⟨e, he⟩, by rw [hrun], ⟨e, by rw [hrun]⟩⟩

/-- C4 witness: a single item priced 0 makes `createPurchaseOrder` fail
and `runAgent` return the validation error with zero agent sessions
opened, even against an agent oracle that would succeed. -/
theorem runAgent_invalid_price_fails_before_session_witness :
    (∃ e, createPurchaseOrder
      [⟨"free-1", .chest, "Sticker", none, .finite 0, "USD", "m"⟩] = .error e) ∧
    (runAgent (fun _ => .ok (none : Option Unit))
      [⟨"free-1", .chest, "Sticker", none, .finite 0, "USD", "m"⟩]).sessionsOpened = 0 ∧
    (∃ e, (runAgent (fun _ => .ok (none : Option Unit))
      [⟨"free-1", .chest, "Sticker", none, .finite 0, "USD", "m"⟩]).result = .error e) :=
  runAgent_invalid_price_fails_before_session _ _
    ⟨⟨"free-1", .chest, "Sticker", none, .finite 0, "USD", "m"⟩,
      List.mem_singleton.mpr rfl,
      fun ⟨q, hq, hq0⟩ => by cases hq; exact absurd hq0 (by norm_num)⟩

/-! ## The layer compositor (`generateOutfitImage`,
src/actions/index.ts lines 258-354, and `composeGarmentWithGemini`,
lines 195-256)

Image bytes are modelled as abstract `String` tokens; base64
encoding/decoding of the abstract bytes is modelled as the identity.
The Gemini call is an oracle `respond` mapping the request (base image
and pass slice — the pass prompt is itself a function of exactly these)
to the streamed response, a list of chunks each carrying the optional
`inlineData.data` of its parts. -/

/-- The canonical layering order (src/actions/index.ts lines 48-59). -/
def LAYERING_ORDER : List SlotId :=
  [.legs, .feet, .chest, .head, .bag, .hand, .neck, .ears, .ring, .waist]

/-- Per-pass garment cap (src/actions/index.ts line 61). -/
def MAX_GARMENTS_PER_PASS : Nat := 2

/-- A slot image reference (`WardrobeSlotImage` in `src/lib/types`). -/
structure WardrobeSlotImage where
  buffer : Option String
  dataUrl : Option String
  imageUrl : Option String
  mimeType : Option String
deriving DecidableEq, Repr

/-- A resolved slot asset as pushed onto `slotAssets`
(src/actions/index.ts lines 269-292). -/
structure SlotAsset where
  slot : SlotId
  buffer : String
  mimeType : String
deriving DecidableEq, Repr

/-- The portrait argument of `generateOutfitImage`. -/
structure PortraitInput where
  buffer : Option String
  mimeType : Option String
  dataUrl : Option String
deriving DecidableEq, Repr

/-- The `for (const slot of LAYERING_ORDER)` resolution loop
(src/actions/index.ts lines 272-292), folded over the given slot list:
a missing slot entry is skipped; a present buffer is used directly; else
a truthy `imageUrl` is fetched (a fetch failure throws); else the slot is
skipped. `fetcher` models `fetchImageBufferFromUrl`. -/
def collectSlotAssetsOver (fetcher : String → Except String String)
    (slots : SlotId → Option WardrobeSlotImage) :
    List SlotId → Except String (List SlotAsset)
  | [] => .ok []
  | slot :: rest =>
      match slots slot with
      | none => collectSlotAssetsOver fetcher slots rest
      | some asset =>
          match asset.buffer with
          | some b => do
              let others ← collectSlotAssetsOver fetcher slots rest
              pure (⟨slot, b, asset.mimeType.getD "image/png"⟩ :: others)
          | none =>
              match asset.imageUrl with
              | some url =>
                  if jsTruthyStr url then do
                    let b ← fetcher url
                    let others ← collectSlotAssetsOver fetcher slots rest
                    pure (⟨slot, b, asset.mimeType.getD "image/png"⟩ :: others)
                  else collectSlotAssetsOver fetcher slots rest
              | none => collectSlotAssetsOver fetcher slots rest

/-- The resolvable slot assets of a render, in canonical layering order. -/
def collectSlotAssets (fetcher : String → Except String String)
    (slots : SlotId → Option WardrobeSlotImage) :
    Except String (List SlotAsset) :=
  collectSlotAssetsOver fetcher slots LAYERING_ORDER

/-- `splitAtLastMarker marker l` splits `l` around the last occurrence of
`marker` (matching the greedy `(.+)` of the data-URL regex). -/
def splitAtLastMarker (marker : List Char) : List Char → Option (List Char × List Char)
  | [] => none
  | c :: rest =>
      match splitAtLastMarker marker rest with
      | some (before, after) => some (c :: before, after)
      | none =>
          if listIsPrefix marker (c :: rest) then
            some ([], (c :: rest).drop marker.length)
          else none

/-- `dataUrlToBuffer` (src/actions/index.ts lines 168-181): match
`^data:(.+);base64,(.*)$` (greedy group 1, hence the last `;base64,`
marker), returning the payload (base64 decoding of the abstract bytes
modelled as the identity) and the mime type. -/
def dataUrlToBuffer (dataUrl : String) : Except String (String × String) :=
  if listIsPrefix "data:".data dataUrl.data then
    match splitAtLastMarker ";base64,".data (dataUrl.data.drop 5) with
    | some (mime, payload) =>
        if mime.isEmpty then .error "Invalid portrait data URL."
        else .ok (String.mk payload,
          if jsTruthyStr (String.mk mime) then String.mk mime else "image/png")
    | none => .error "Invalid portrait data URL."
  else .error "Invalid portrait data URL."

/-- `portraitMimeType || 'image/png'` (src/actions/index.ts line 308). -/
def resolveMime (m : Option String) : String :=
  if jsTruthyStr (m.getD "") then m.getD "" else "image/png"

/-- Portrait resolution (src/actions/index.ts lines 298-308): use the
provided buffer, else parse a truthy data URL, else fail. -/
def resolvePortrait (p : PortraitInput) : Except String (String × String) :=
  match p.buffer with
  | some b => .ok (b, resolveMime p.mimeType)
  | none =>
      match p.dataUrl with
      | some du =>
          if jsTruthyStr du then
            match dataUrlToBuffer du with
            | .ok (b, m) => .ok (b, resolveMime (some m))
            | .error e => .error e
          else .error "A processed portrait is required before generating."
      | none => .error "A processed portrait is required before generating."

/-- A streamed Gemini response: chunks, each a list of parts, each part
carrying `inlineData?.data` when present. -/
def GeminiStream : Type := List (List (Option String))

/-- The first truthy `inlineData.data` within one chunk's parts
(src/actions/index.ts lines 248-252). -/
def firstInChunk : List (Option String) → Option String
  | [] => none
  | some d :: rest => if jsTruthyStr d then some d else firstInChunk rest
  | none :: rest => firstInChunk rest

/-- The first image-bearing part across the stream
(src/actions/index.ts lines 245-253). -/
def firstImageData : GeminiStream → Option String
  | [] => none
  | chunk :: rest =>
      match firstInChunk chunk with
      | some d => some d
      | none => firstImageData rest

/-- `composeGarmentWithGemini` applied to the stream the model returned
(src/actions/index.ts lines 245-255): the first image-bearing part wins;
a stream without one throws. -/
def composeGarmentWithGemini (stream : GeminiStream) : Except String String :=
  match firstImageData stream with
  | some d => .ok d
  | none => .error "Gemini did not return an updated portrait."

/-- The pass partition produced by the stride-`MAX_GARMENTS_PER_PASS`
slice loop of `generateOutfitImage` (src/actions/index.ts lines 312-313). -/
def chunkPasses {α : Type} : List α → List (List α)
  | [] => []
  | a :: rest =>
      (a :: rest).take MAX_GARMENTS_PER_PASS ::
        chunkPasses ((a :: rest).drop MAX_GARMENTS_PER_PASS)
termination_by l => l.length
decreasing_by
  simp [MAX_GARMENTS_PER_PASS]
  omega

/-- The sequential pass loop (src/actions/index.ts lines 312-347):
each pass sends the current working portrait plus the pass slice to the
model and threads the returned image into the next pass; a failing pass
aborts the remaining ones. -/
def runPasses (respond : String → List SlotAsset → GeminiStream) :
    String → List (List SlotAsset) → Except String String
  | base, [] => .ok base
  | base, pass :: rest =>
      match composeGarmentWithGemini (respond base pass) with
      | .error e => .error e
      | .ok next => runPasses respond next rest

/-- `generateOutfitImage` (src/actions/index.ts lines 258-354). -/
def generateOutfitImage (fetcher : String → Except String String)
    (respond : String → List SlotAsset → GeminiStream)
    (portrait : PortraitInput) (slots : SlotId → Option WardrobeSlotImage) :
    Except String String :=
  match collectSlotAssets fetcher slots with
  | .error e => .error e
  | .ok slotAssets =>
      if slotAssets.isEmpty then
        .error "At least one slot needs an image to render an outfit."
      else
        match resolvePortrait portrait with
        | .error e => .error e
        | .ok (portraitBuffer, resolvedPortraitMimeType) =>
            match runPasses respond portraitBuffer (chunkPasses slotAssets) with
            | .error e => .error e
            | .ok workingPortrait =>
                .ok ("data:" ++ resolvedPortraitMimeType ++ ";base64," ++
                  workingPortrait)

theorem chunkPasses_join_of_length_le {α : Type} :
    ∀ (n : Nat) (l : List α), l.length ≤ n → (chunkPasses l).flatten = l := by
  intro n
  induction n with
  | zero =>
      intro l hl
      have hnil : l = [] := List.length_eq_zero.mp (Nat.le_zero.mp hl)
      subst hnil
      simp [chunkPasses]
  | succ n ih =>
      intro l hl
      cases l with
      | nil => simp [chunkPasses]
      | cons a rest =>
          rw [chunkPasses]
          simp only [List.flatten_cons]
          rw [ih ((a :: rest).drop MAX_GARMENTS_PER_PASS)
            (by
              simp only [List.length_cons] at hl
              simp [MAX_GARMENTS_PER_PASS]
              omega)]
          exact List.take_append_drop _ _

theorem chunkPasses_sizes_of_length_le {α : Type} :
    ∀ (n : Nat) (l : List α), l.length ≤ n →
      ∀ pass ∈ chunkPasses l, pass.length ≤ MAX_GARMENTS_PER_PASS ∧ pass ≠ [] := by
  intro n
  induction n with
  | zero =>
      intro l hl pass hpass
      have hnil : l = [] := List.length_eq_zero.mp (Nat.le_zero.mp hl)
      subst hnil
      simp [chunkPasses] at hpass
  | succ n ih =>
      intro l hl pass hpass
      cases l with
      | nil => simp [chunkPasses] at hpass
      | cons a rest =>
          rw [chunkPasses] at hpass
          cases hpass with
          | head =>
              constructor
              · exact List.length_take_le MAX_GARMENTS_PER_PASS (a :: rest)
              · simp [MAX_GARMENTS_PER_PASS]
          | tail _ hmem =>
              exact ih ((a :: rest).drop MAX_GARMENTS_PER_PASS)
                (by
                  simp only [List.length_cons] at hl
                  simp [MAX_GARMENTS_PER_PASS]
                  omega) pass hmem

/-- C5: the pass partition of `generateOutfitImage` splits the
layering-ordered resolvable assets into consecutive non-empty passes of at
most `MAX_GARMENTS_PER_PASS = 2` garments whose concatenation restores the
asset list; for garments equipped exactly in the chest, legs and head
slots the resolved assets are `[legs, chest, head]` (legs precedes chest
per the canonical layering order), the partition is exactly the 2 passes
`[[legs, chest], [head]]`, and the render threads sequentially: pass 2 is
issued on `mid`, the image returned by pass 1 (not on the original
portrait `pb`), and the final data URL carries pass 2's output. -/
theorem generateOutfitImage_two_pass_threading
    (fetcher : String → Except String String)
    (respond : String → List SlotAsset → GeminiStream)
    (pb lb cb hb mid final : String)
    (h1 : composeGarmentWithGemini (respond pb
      [⟨.legs, lb, "image/png"⟩, ⟨.chest, cb, "image/png"⟩]) = .ok mid)
    (h2 : composeGarmentWithGemini
      (respond mid [⟨.head, hb, "image/png"⟩]) = .ok final) :
    (∀ assets : List SlotAsset, (chunkPasses assets).flatten = assets ∧
      ∀ pass ∈ chunkPasses assets,
        pass.length ≤ MAX_GARMENTS_PER_PASS ∧ pass ≠ []) ∧
    collectSlotAssets fetcher (fun s =>
      match s with
      | .chest => some ⟨some cb, none, none, none⟩
      | .legs => some ⟨some lb, none, none, none⟩
      | .head => some ⟨some hb, none, none, none⟩
      | _ => none) =
      .ok [⟨.legs, lb, "image/png"⟩, ⟨.chest, cb, "image/png"⟩,
        ⟨.head, hb, "image/png"⟩] ∧
    chunkPasses [(⟨.legs, lb, "image/png"⟩ : SlotAsset),
        ⟨.chest, cb, "image/png"⟩, ⟨.head, hb, "image/png"⟩] =
      [[⟨.legs, lb, "image/png"⟩, ⟨.chest, cb, "image/png"⟩],
        [⟨.head, hb, "image/png"⟩]] ∧
    generateOutfitImage fetcher respond ⟨some pb, none, none⟩ (fun s =>
      match s with
      | .chest => some ⟨some cb, none, none, none⟩
      | .legs => some ⟨some lb, none, none, none⟩
      | .head => some ⟨some hb, none, none, none⟩
      | _ => none) = .ok ("data:image/png;base64," ++ final) := by
  have hcollect : collectSlotAssets fetcher (fun s =>
      match s with
      | .chest => some ⟨some cb, none, none, none⟩
      | .legs => some ⟨some lb, none, none, none⟩
      | .head => some ⟨some hb, none, none, none⟩
      | _ => none) =
      .ok [⟨.legs, lb, "image/png"⟩, ⟨.chest, cb, "image/png"⟩,
        ⟨.head, hb, "image/png"⟩] := rfl
  have hchunk : chunkPasses [(⟨.legs, lb, "image/png"⟩ : SlotAsset),
      ⟨.chest, cb, "image/png"⟩, ⟨.head, hb, "image/png"⟩] =
      [[⟨.legs, lb, "image/png"⟩, ⟨.chest, cb, "image/png"⟩],
        [⟨.head, hb, "image/png"⟩]] := by
    simp [chunkPasses, MAX_GARMENTS_PER_PASS]
  refine ⟨fun assets => ⟨chunkPasses_join_of_length_le assets.length assets le_rfl,
    chunkPasses_sizes_of_length_le assets.length assets le_rfl⟩,
    hcollect, hchunk, ?_⟩
  have hrun : runPasses respond pb
      (chunkPasses [(⟨.legs, lb, "image/png"⟩ : SlotAsset),
        ⟨.chest, cb, "image/png"⟩, ⟨.head, hb, "image/png"⟩]) = .ok final := by
    rw [hchunk]
    simp only [runPasses, h1, h2]
  unfold generateOutfitImage
  rw [hcollect]
  simp only [List.isEmpty_cons, Bool.false_eq_true, if_false]
  rw [show resolvePortrait ⟨some pb, none, none⟩ = .ok (pb, "image/png") from rfl]
  simp only [hrun]
  rfl

/-- C5 witness: with a model oracle that appends a marker to its base
image, the chest/legs/head render issues two threaded passes and returns
the doubly-marked portrait. -/
theorem generateOutfitImage_two_pass_threading_witness :
    generateOutfitImage (fun _ => .error "no-fetch")
      (fun base _ => [[some (base ++ "*")]])
      ⟨some "p", none, none⟩ (fun s =>
        match s with
        | .chest => some ⟨some "c", none, none, none⟩
        | .legs => some ⟨some "l", none, none, none⟩
        | .head => some ⟨some "h", none, none, none⟩
        | _ => none) = .ok ("data:image/png;base64," ++ ("p" ++ "*" ++ "*")) :=
  (generateOutfitImage_two_pass_threading (fun _ => .error "no-fetch")
    (fun base _ => [[some (base ++ "*")]])
    "p" "l" "c" "h" ("p" ++ "*") ("p" ++ "*" ++ "*") rfl rfl).2.2.2

/-- The working portrait that reaches pass `k` of the sequential loop:
`some b` when passes `0..k-1` all succeeded with `b` the image threaded
into pass `k`, `none` when an earlier pass failed or `k` is past the end. -/
def passBaseAt (respond : String → List SlotAsset → GeminiStream) :
    String → List (List SlotAsset) → Nat → Option String
  | base, _, 0 => some base
  | _, [], _ + 1 => none
  | base, pass :: rest, k + 1 =>
      match composeGarmentWithGemini (respond base pass) with
      | .ok next => passBaseAt respond next rest k
      | .error _ => none

theorem runPasses_error_of_no_image
    (respond : String → List SlotAsset → GeminiStream) :
    ∀ (k : Nat) (passes : List (List SlotAsset)) (base b : String)
      (pass : List SlotAsset),
      passBaseAt respond base passes k = some b →
      passes.get? k = some pass →
      firstImageData (respond b pass) = none →
      runPasses respond base passes =
        .error "Gemini did not return an updated portrait." ∧
      runPasses respond base (passes.take (k + 1)) =
        .error "Gemini did not return an updated portrait." := by
  intro k
  induction k with
  | zero =>
      intro passes base b pass hbase hget hni
      cases passes with
      | nil => cases hget
      | cons p rest =>
          have hp : p = pass := by
            simpa using hget
          subst hp
          have hb : base = b := by
            simpa [passBaseAt] using hbase
          subst hb
          have hcomp : composeGarmentWithGemini (respond base p) =
              .error "Gemini did not return an updated portrait." := by
            unfold composeGarmentWithGemini
            rw [hni]
          constructor
          · simp [runPasses, hcomp]
          · simp [runPasses, hcomp]
  | succ k ih =>
      intro passes base b pass hbase hget hni
      cases passes with
      | nil => cases hget
      | cons p rest =>
          simp only [passBaseAt] at hbase
          cases hcomp : composeGarmentWithGemini (respond base p) with
          | error e => rw [hcomp] at hbase; cases hbase
          | ok next =>
              rw [hcomp] at hbase
              obtain ⟨h1, h2⟩ := ih rest next b pass hbase (by simpa using hget) hni
              constructor
              · simp [runPasses, hcomp, h1]
              · simp [List.take_succ_cons, runPasses, hcomp, h2]

/-- C6: when the working portrait `b` reaches pass `k` and the stream the
model returns for that pass contains no image part, the whole
`generateOutfitImage` call fails with the error thrown inside that pass
(`"Gemini did not return an updated portrait."`): the pass is not
silently skipped and no partial or best-effort composited image is
returned — indeed already the run truncated right after pass `k` yields
this same error, so the remaining passes are aborted and never influence
the outcome. -/
theorem generateOutfitImage_no_image_fails
    (fetcher : String → Except String String)
    (respond : String → List SlotAsset → GeminiStream)
    (portrait : PortraitInput) (slots : SlotId → Option WardrobeSlotImage)
    (assets : List SlotAsset) (pb pm b : String) (k : Nat)
    (pass : List SlotAsset)
    (hassets : collectSlotAssets fetcher slots = .ok assets)
    (hne : assets.isEmpty = false)
    (hport : resolvePortrait portrait = .ok (pb, pm))
    (hbase : passBaseAt respond pb (chunkPasses assets) k = some b)
    (hget : (chunkPasses assets).get? k = some pass)
    (hni : firstImageData (respond b pass) = none) :
    generateOutfitImage fetcher respond portrait slots =
      .error "Gemini did not return an updated portrait." ∧
    runPasses respond pb ((chunkPasses assets).take (k + 1)) =
      .error "Gemini did not return an updated portrait." := by
  obtain ⟨h1, h2⟩ := runPasses_error_of_no_image respond k (chunkPasses assets)
    pb b pass hbase hget hni
  refine ⟨?_, h2⟩
  unfold generateOutfitImage
  rw [hassets]
  simp only [hne, Bool.false_eq_true, if_false, hport, h1]

/-- C6 witness: with a single chest garment and a model stream that
carries no image part, the render fails with that pass's error. -/
theorem generateOutfitImage_no_image_fails_witness :
    generateOutfitImage (fun _ => .error "no-fetch") (fun _ _ => [])
      ⟨some "p", none, none⟩ (fun s =>
        match s with
        | .chest => some ⟨some "c", none, none, none⟩
        | _ => none) = .error "Gemini did not return an updated portrait." :=
  (generateOutfitImage_no_image_fails (fun _ => .error "no-fetch")
    (fun _ _ => []) ⟨some "p", none, none⟩
    (fun s =>
      match s with
      | .chest => some ⟨some "c", none, none, none⟩
      | _ => none)
    [⟨.chest, "c", "image/png"⟩] "p" "image/png" "p" 0
    [⟨.chest, "c", "image/png"⟩] rfl rfl rfl
    (by simp [chunkPasses, MAX_GARMENTS_PER_PASS, passBaseAt])
    (by simp [chunkPasses, MAX_GARMENTS_PER_PASS]) rfl).1

/-! ## Slot matching (`productMatchesSlot`,
src/components/wardrobe.tsx lines 80-202) -/

/-- `listContainsSub needle hay` decides whether `needle` occurs as a
contiguous substring of `hay` (character-list version of
`String.prototype.includes`). -/
def listContainsSub (needle : List Char) : List Char → Bool
  | [] => listIsPrefix needle []
  | c :: rest => listIsPrefix needle (c :: rest) || listContainsSub needle rest

/-- `jsIncludes hay needle` is JavaScript `hay.includes(needle)`. -/
def jsIncludes (hay needle : String) : Bool := listContainsSub needle.data hay.data

/-- `s.toLowerCase()` (ASCII; all slot keywords are ASCII). -/
def jsToLower (s : String) : String := ⟨s.data.map Char.toLower⟩

/-- A saved catalog product (`ProductSummary` in `src/lib/types`),
restricted to the fields the wardrobe logic reads. -/
structure ProductSummary where
  id : String
  name : String
  description : Option String
deriving DecidableEq, Repr

/-- `slotKeywordMap` (src/components/wardrobe.tsx lines 80-174). -/
def slotKeywordMap : SlotId → List String
  | .head =>
      ["hat", "helmet", "cap", "beanie", "visor", "headband", "bucket hat",
        "sun hat"]
  | .chest =>
      ["shirt", "tee", "t-shirt", "rash guard", "rashguard", "hoodie",
        "jacket", "top", "vest", "long sleeve", "pullover", "sweater", "crew",
        "tank", "jersey", "fleece"]
  | .waist =>
      ["belt", "waist", "fanny", "hip pack", "utility belt", "sash", "wrap"]
  | .legs =>
      ["short", "shorts", "pant", "pants", "trouser", "trousers", "legging",
        "leggings", "tight", "tights", "boardshort", "boardshorts", "baggies",
        "jean", "jeans", "bottom", "skirt"]
  | .feet =>
      ["shoe", "shoes", "boot", "boots", "sandal", "sandals", "flip-flop",
        "flip flop", "flop", "sneaker", "sneakers", "sock", "socks", "slide",
        "slides"]
  | .ears => ["earring", "ear ring", "ear cuff", "ear stud", "ear hoop"]
  | .neck => ["necklace", "scarf", "chain", "neck gaiter", "bandana", "choker"]
  | .bag =>
      ["bag", "backpack", "back pack", "tote", "duffle", "duffel", "dry bag",
        "sling", "satchel", "pouch"]
  | .hand =>
      ["glove", "gloves", "mitten", "mittens", "surfboard", "longboard",
        "shortboard", "paddle", "wax", "leash", "fin"]
  | .ring => ["ring", "band", "signet"]

/-- `buildProductSearchText` (src/components/wardrobe.tsx lines 194-195):
the template literal interpolates a space between the name and the
(possibly empty) description before lowercasing. -/
def buildProductSearchText (product : ProductSummary) : String :=
  jsToLower (product.name ++ " " ++ product.description.getD "")

/-- `productMatchesSlot` (src/components/wardrobe.tsx lines 197-202). -/
def productMatchesSlot (product : ProductSummary) (slotId : SlotId) : Bool :=
  let keywords := slotKeywordMap slotId
  if keywords.isEmpty then false
  else keywords.any (fun keyword => jsIncludes (buildProductSearchText product) keyword)

/-- The matching relation exactly as the claim words it: some keyword of
the slot is a literal substring of the lowercase concatenation of the
product's name and description — with no separator between the two.
Stated from the claim's wording, to be compared with the source's
`productMatchesSlot` (which inserts a space between name and
description). -/
def claimMatchesSlot (product : ProductSummary) (slotId : SlotId) : Prop :=
  ∃ keyword ∈ slotKeywordMap slotId,
    jsIncludes (jsToLower (product.name ++ product.description.getD ""))
      keyword = true

/-- C7 counterexample: for the product named `"h"` with description
`"at"`, the bare concatenation is `"hat"`, so the claim's relation makes
it match the `head` slot; but the code's haystack is `"h at"` (a space is
interpolated between name and description), which contains no `head`
keyword, so `productMatchesSlot` rejects it. -/
theorem productMatchesSlot_space_counterexample :
    claimMatchesSlot ⟨"p1", "h", some "at"⟩ .head ∧
    productMatchesSlot ⟨"p1", "h", some "at"⟩ .head = false := by
  constructor
  · exact ⟨"hat", by decide, by decide⟩
  · decide

/-- C7 (amended): a product matches a slot iff at least one of the slot's
keywords is a literal substring of the lowercase string built from the
product's name, a space, and its description (the empty string when the
description is absent) — no tokenization or stemming; a product may
therefore match zero, one, or many slots at once. -/
theorem productMatchesSlot_iff (product : ProductSummary) (slotId : SlotId) :
    productMatchesSlot product slotId = true ↔
      ∃ keyword ∈ slotKeywordMap slotId,
        jsIncludes
          (jsToLower (product.name ++ " " ++ product.description.getD ""))
          keyword = true := by
  unfold productMatchesSlot buildProductSearchText
  by_cases hk : (slotKeywordMap slotId).isEmpty
  · rw [List.isEmpty_iff] at hk
    simp [hk]
  · simp [hk, List.any_eq_true]

/-! ## The slot-options index (`slotOptionsMap`,
src/components/wardrobe.tsx lines 428-459) -/

/-- `allSlotIds` (src/components/wardrobe.tsx lines 178-189). -/
def allSlotIds : List SlotId :=
  [.head, .chest, .waist, .legs, .feet, .ears, .neck, .bag, .hand, .ring]

/-- `slotFallbackPriority` (src/components/wardrobe.tsx line 176). -/
def slotFallbackPriority : List SlotId := [.chest, .legs, .hand, .bag]

/-- `map[slotId].push(product)` on the slot→products record. -/
def pushProduct (m : SlotId → List ProductSummary) (slotId : SlotId)
    (product : ProductSummary) : SlotId → List ProductSummary :=
  fun s => if s = slotId then m s ++ [product] else m s

/-- The body of the `savedProducts.forEach` loop of `slotOptionsMap`
(src/components/wardrobe.tsx lines 437-456): compute the matched slots;
with no match, push onto the first fallback-priority slot whose map entry
is truthy (a JS array always is, hence onto `chest`); otherwise push onto
every matched slot. -/
def slotOptionsStep (m : SlotId → List ProductSummary)
    (product : ProductSummary) : SlotId → List ProductSummary :=
  let matchedSlots := allSlotIds.filter (fun slotId => productMatchesSlot product slotId)
  if matchedSlots.isEmpty then
    match slotFallbackPriority.find? (fun slotId => jsTruthyArr (m slotId)) with
    | some fallback => pushProduct m fallback product
    | none => m
  else
    matchedSlots.foldl (fun acc slotId => pushProduct acc slotId product) m

/-- `slotOptionsMap` (src/components/wardrobe.tsx lines 428-459), starting
from the all-empty record built by the initial `reduce`. -/
def slotOptionsMap (savedProducts : List ProductSummary) :
    SlotId → List ProductSummary :=
  savedProducts.foldl slotOptionsStep (fun _ => [])

theorem pushProduct_mem_mono (m : SlotId → List ProductSummary)
    (slotId : SlotId) (product x : ProductSummary) (s : SlotId)
    (h : x ∈ m s) : x ∈ pushProduct m slotId product s := by
  unfold pushProduct
  by_cases hs : s = slotId
  · simp [hs]
    exact .inl (by simpa [hs] using h)
  · simpa [hs] using h

theorem pushFold_mem_mono (product x : ProductSummary) :
    ∀ (l : List SlotId) (m : SlotId → List ProductSummary) (s : SlotId),
      x ∈ m s →
      x ∈ (l.foldl (fun acc slotId => pushProduct acc slotId product) m) s := by
  intro l
  induction l with
  | nil => intro m s h; exact h
  | cons a rest ih =>
      intro m s h
      exact ih (pushProduct m a product) s
        (pushProduct_mem_mono m a product x s h)

theorem slotOptionsStep_mem_mono (m : SlotId → List ProductSummary)
    (product x : ProductSummary) (s : SlotId) (h : x ∈ m s) :
    x ∈ slotOptionsStep m product s := by
  unfold slotOptionsStep
  by_cases hm : (allSlotIds.filter
      (fun slotId => productMatchesSlot product slotId)).isEmpty
  · simp only [hm, if_true]
    cases hf : slotFallbackPriority.find?
        (fun slotId => jsTruthyArr (m slotId)) with
    | none => exact h
    | some fallback => exact pushProduct_mem_mono m fallback product x s h
  · simp only [hm, Bool.false_eq_true, if_false]
    exact pushFold_mem_mono product x _ m s h

theorem slotOptionsFold_mem_mono (x : ProductSummary) :
    ∀ (saved : List ProductSummary) (m : SlotId → List ProductSummary)
      (s : SlotId), x ∈ m s → x ∈ (saved.foldl slotOptionsStep m) s := by
  intro saved
  induction saved with
  | nil => intro m s h; exact h
  | cons q rest ih =>
      intro m s h
      exact ih (slotOptionsStep m q) s (slotOptionsStep_mem_mono m q x s h)

theorem pushFold_mem_inv (product x : ProductSummary) :
    ∀ (l : List SlotId) (m : SlotId → List ProductSummary) (s : SlotId),
      x ∈ (l.foldl (fun acc slotId => pushProduct acc slotId product) m) s →
      x ∈ m s ∨ x = product := by
  intro l
  induction l with
  | nil => intro m s h; exact .inl h
  | cons a rest ih =>
      intro m s h
      cases ih (pushProduct m a product) s h with
      | inr hx => exact .inr hx
      | inl hx =>
          unfold pushProduct at hx
          by_cases hs : s = a
          · simp [hs] at hx
            cases hx with
            | inl hx => exact .inl (by simpa [hs] using hx)
            | inr hx => exact .inr hx
          · exact .inl (by simpa [hs] using hx)

theorem fallback_find_eq_chest (m : SlotId → List ProductSummary) :
    slotFallbackPriority.find? (fun slotId => jsTruthyArr (m slotId)) =
      some .chest := rfl

theorem matchedSlots_empty_of_no_match (p : ProductSummary)
    (hp : ∀ s, productMatchesSlot p s = false) :
    allSlotIds.filter (fun slotId => productMatchesSlot p slotId) = [] := by
  rw [List.filter_eq_nil_iff]
  intro s _
  simp [hp s]

theorem slotOptionsStep_not_mem (p q : ProductSummary)
    (hp : ∀ s, productMatchesSlot p s = false)
    (m : SlotId → List ProductSummary)
    (hm : ∀ s, s ≠ SlotId.chest → p ∉ m s) :
    ∀ s, s ≠ SlotId.chest → p ∉ slotOptionsStep m q s := by
  intro s hs
  unfold slotOptionsStep
  by_cases hq : (allSlotIds.filter
      (fun slotId => productMatchesSlot q slotId)).isEmpty
  · simp only [hq, if_true, fallback_find_eq_chest]
    unfold pushProduct
    simp only [hs, if_false]
    exact hm s hs
  · simp only [hq, Bool.false_eq_true, if_false]
    intro hmem
    cases pushFold_mem_inv q p _ m s hmem with
    | inl h => exact hm s hs h
    | inr h =>
        subst h
        exact hq (by rw [matchedSlots_empty_of_no_match p hp]; rfl)

theorem slotOptionsFold_not_mem (p : ProductSummary)
    (hp : ∀ s, productMatchesSlot p s = false) :
    ∀ (saved : List ProductSummary) (m : SlotId → List ProductSummary),
      (∀ s, s ≠ SlotId.chest → p ∉ m s) →
      ∀ s, s ≠ SlotId.chest → p ∉ (saved.foldl slotOptionsStep m) s := by
  intro saved
  induction saved with
  | nil => intro m hm s hs; exact hm s hs
  | cons q rest ih =>
      intro m hm s hs
      exact ih (slotOptionsStep m q) (slotOptionsStep_not_mem p q hp m hm) s hs

theorem slotOptionsFold_mem_chest (p : ProductSummary)
    (hp : ∀ s, productMatchesSlot p s = false) :
    ∀ (saved : List ProductSummary) (m : SlotId → List ProductSummary),
      p ∈ saved → p ∈ (saved.foldl slotOptionsStep m) SlotId.chest := by
  intro saved
  induction saved with
  | nil => intro m hmem; cases hmem
  | cons q rest ih =>
      intro m hmem
      cases hmem with
      | head =>
          apply slotOptionsFold_mem_mono p rest (slotOptionsStep m p)
          unfold slotOptionsStep
          rw [show (allSlotIds.filter
              (fun slotId => productMatchesSlot p slotId)).isEmpty = true from by
            rw [matchedSlots_empty_of_no_match p hp]; rfl]
          simp only [if_true, fallback_find_eq_chest]
          unfold pushProduct
          simp
      | tail _ hmem' => exact ih (slotOptionsStep m q) hmem'

/-- C8: a saved product that matches no slot's keywords lands in exactly
one slot's option list, namely `chest` — which is the first slot of the
fallback priority list `[chest, legs, hand, bag]` that occurs in the
target slot set `allSlotIds` — so no saved product is unreachable from
every slot's option list. -/
theorem slotOptionsMap_fallback_chest (saved : List ProductSummary)
    (p : ProductSummary) (hmem : p ∈ saved)
    (hp : ∀ s, productMatchesSlot p s = false) :
    slotFallbackPriority.find? (fun s => decide (s ∈ allSlotIds)) =
      some .chest ∧
    p ∈ slotOptionsMap saved .chest ∧
    ∀ s, p ∈ slotOptionsMap saved s → s = .chest := by
  refine ⟨by decide, slotOptionsFold_mem_chest p hp saved _ hmem, ?_⟩
  intro s hs
  by_contra hne
  exact slotOptionsFold_not_mem p hp saved (fun _ => [])
    (by intro s' _ h; cases h) s hne hs

/-- C8 witness: the keyword-less product named "xyz" is indexed under
`chest` (and only there) by the fallback policy. -/
theorem slotOptionsMap_fallback_chest_witness :
    (⟨"px", "xyz", none⟩ : ProductSummary) ∈
      slotOptionsMap [⟨"px", "xyz", none⟩] .chest ∧
    ((⟨"px", "xyz", none⟩ : ProductSummary) ∈
      slotOptionsMap [⟨"px", "xyz", none⟩] .legs → False) := by
  have h := slotOptionsMap_fallback_chest [⟨"px", "xyz", none⟩]
    ⟨"px", "xyz", none⟩ (List.mem_singleton.mpr rfl)
    (by intro s; cases s <;> decide)
  refine ⟨h.2.1, fun hmem => ?_⟩
  cases h.2.2 .legs hmem

/-! ## The portrait upload boundary (`handlePortraitFileChange`,
src/components/wardrobe.tsx lines 461-529) -/

/-- The selected file as the browser reports it: its byte size and its
declared MIME type (the empty string when the browser cannot determine
one). -/
structure JSFile where
  size : Nat
  type : String
deriving DecidableEq, Repr

/-- `maxSizeBytes` (src/components/wardrobe.tsx line 468). -/
def maxPortraitSizeBytes : Nat := 5 * 1024 * 1024

/-- `allowedMimeTypes` (src/components/wardrobe.tsx lines 469-476). -/
def allowedPortraitMimeTypes : List String :=
  ["image/png", "image/jpeg", "image/jpg", "image/webp", "image/heic",
    "image/heif"]

/-- The client-side validation of `handlePortraitFileChange`
(src/components/wardrobe.tsx lines 478-488): `some errorMessage` when the
file is rejected (and the upload `fetch` is never issued), `none` when
the file proceeds to the portrait-processing call. Note the guard
`file.type && !allowedMimeTypes.has(file.type)`: the type check only
fires when the declared type is truthy (non-empty). -/
def portraitGate (file : JSFile) : Option String :=
  if file.size > maxPortraitSizeBytes then
    some "Portrait must be 5 MB or smaller."
  else if jsTruthyStr file.type &&
      !(allowedPortraitMimeTypes.contains file.type) then
    some "Portrait must be a JPG, PNG, HEIC, or WEBP image."
  else
    none

/-- C9 counterexample: a small file whose declared MIME type is the empty
string — which is not in the accepted set — is nevertheless forwarded
(the gate returns `none`), because the type check only fires on a truthy
(non-empty) declared type. -/
theorem portraitGate_empty_type_counterexample :
    portraitGate ⟨1024, ""⟩ = none ∧
    allowedPortraitMimeTypes.contains "" = false := by
  constructor
  · decide
  · decide

/-- C9 (amended): before the upload request is issued, the portrait gate
rejects every file larger than 5 MB, and every file whose non-empty
declared MIME type lies outside the accepted set (PNG, JPEG, WEBP,
HEIC/HEIF); conversely a file it forwards is at most 5 MB and either
declares an accepted type or declares no type at all (the empty string),
in which case it is forwarded unchecked. -/
theorem portraitGate_checks (file : JSFile) :
    (file.size > maxPortraitSizeBytes →
      portraitGate file = some "Portrait must be 5 MB or smaller.") ∧
    (file.size ≤ maxPortraitSizeBytes → file.type ≠ "" →
      allowedPortraitMimeTypes.contains file.type = false →
      portraitGate file = some "Portrait must be a JPG, PNG, HEIC, or WEBP image.") ∧
    (portraitGate file = none →
      file.size ≤ maxPortraitSizeBytes ∧
        (file.type = "" ∨ allowedPortraitMimeTypes.contains file.type = true)) := by
  refine ⟨fun hbig => ?_, fun hsize htype hmime => ?_, fun hnone => ?_⟩
  · simp [portraitGate, hbig]
  · have hns : ¬ file.size > maxPortraitSizeBytes := not_lt.mpr hsize
    have ht : jsTruthyStr file.type = true := by
      simp [jsTruthyStr, htype]
    have hmime' : file.type ∉ allowedPortraitMimeTypes := by
      simpa using hmime
    simp [portraitGate, hns, ht, hmime']
  · unfold portraitGate at hnone
    by_cases hbig : file.size > maxPortraitSizeBytes
    · simp [hbig] at hnone
    · refine ⟨not_lt.mp hbig, ?_⟩
      by_cases htype : file.type = ""
      · exact .inl htype
      · right
        by_cases hmime : allowedPortraitMimeTypes.contains file.type = true
        · exact hmime
        · exfalso
          have ht : jsTruthyStr file.type = true := by
            simp [jsTruthyStr, htype]
          have hmime' : file.type ∉ allowedPortraitMimeTypes := by
            simpa using hmime
          simp [hbig, ht, hmime'] at hnone

/-- C9 witness: a 6 MB PNG is rejected as oversized, and a small
`text/plain` file is rejected for its type. -/
theorem portraitGate_checks_witness :
    portraitGate ⟨6 * 1024 * 1024, "image/png"⟩ =
      some "Portrait must be 5 MB or smaller." ∧
    portraitGate ⟨1024, "text/plain"⟩ =
      some "Portrait must be a JPG, PNG, HEIC, or WEBP image." :=
  ⟨(portraitGate_checks ⟨6 * 1024 * 1024, "image/png"⟩).1 (by decide),
    (portraitGate_checks ⟨1024, "text/plain"⟩).2.1 (by decide) (by decide)
      (by decide)⟩

/-! ## The product-search route limit
(src/app/api/products/search/route.ts lines 5-43) -/

/-- A JavaScript value as seen by the route's `typeof` test: a number
(possibly `NaN` or infinite) or anything else (string, object, null,
boolean, ...). An absent `limit` property is `none`. -/
inductive JSValue where
  | num (value : JSNum)
  | nonNumber
deriving DecidableEq, Repr

/-- `DEFAULT_LIMIT` (route.ts line 5). -/
def DEFAULT_LIMIT : Int := 4

/-- `MAX_LIMIT` (route.ts line 6). -/
def MAX_LIMIT : Int := 15

/-- The limit resolution of the POST handler (route.ts lines 35-39):
`Math.max(1, Math.min(MAX_LIMIT, Math.floor(limitInput)))` when
`limitInput` is a finite number, `DEFAULT_LIMIT` otherwise. -/
def resolveSearchLimit (limitInput : Option JSValue) : Int :=
  match limitInput with
  | some (.num (.finite q)) => max 1 (min MAX_LIMIT ⌊q⌋)
  | _ => DEFAULT_LIMIT

theorem floor_clamp_comm (q : ℚ) :
    max 1 (min 15 ⌊q⌋) = ⌊max 1 (min 15 q)⌋ := by
  rcases le_or_lt q 1 with h1 | h1
  · have hfq : ⌊q⌋ ≤ 1 := le_trans (Int.floor_le_floor h1) (by norm_num)
    rw [min_eq_right (by omega : ⌊q⌋ ≤ (15 : ℤ)),
      min_eq_right (by linarith : q ≤ (15 : ℚ)),
      max_eq_left hfq, max_eq_left h1]
    norm_num
  · rcases le_or_lt q 15 with h15 | h15
    · have hf1 : 1 ≤ ⌊q⌋ := by
        rw [Int.le_floor]
        push_cast
        linarith
      have hf15 : ⌊q⌋ ≤ 15 := le_trans (Int.floor_le_floor h15) (by norm_num)
      rw [min_eq_right hf15, max_eq_right hf1, min_eq_right h15,
        max_eq_right h1.le]
    · have hf15 : (15 : ℤ) ≤ ⌊q⌋ := by
        rw [Int.le_floor]
        push_cast
        linarith
      rw [min_eq_left hf15, min_eq_left h15.le,
        max_eq_right (by omega : (1 : ℤ) ≤ 15),
        max_eq_right (by norm_num : (1 : ℚ) ≤ 15)]
      norm_num

/-- C10: the limit forwarded to the catalog search is always an integer
between 1 and 15; when the request body's `limit` is a finite number it
equals the floor of that limit clamped into `[1, 15]`, and in every other
case (absent, non-number, `NaN`, infinite) it is the default 4. -/
theorem resolveSearchLimit_clamped (limitInput : Option JSValue) :
    1 ≤ resolveSearchLimit limitInput ∧
    resolveSearchLimit limitInput ≤ 15 ∧
    (∀ q : ℚ, limitInput = some (.num (.finite q)) →
      resolveSearchLimit limitInput = ⌊max 1 (min 15 q)⌋) ∧
    ((∀ q : ℚ, limitInput ≠ some (.num (.finite q))) →
      resolveSearchLimit limitInput = 4) := by
  refine ⟨?_, ?_, ?_, ?_⟩
  · match limitInput with
    | some (.num (.finite q)) => exact le_max_left _ _
    | some (.num .nan) => norm_num [resolveSearchLimit, DEFAULT_LIMIT]
    | some (.num .posInf) => norm_num [resolveSearchLimit, DEFAULT_LIMIT]
    | some (.num .negInf) => norm_num [resolveSearchLimit, DEFAULT_LIMIT]
    | some .nonNumber => norm_num [resolveSearchLimit, DEFAULT_LIMIT]
    | none => norm_num [resolveSearchLimit, DEFAULT_LIMIT]
  · match limitInput with
    | some (.num (.finite q)) =>
        show max 1 (min MAX_LIMIT ⌊q⌋) ≤ 15
        have h15 : min MAX_LIMIT ⌊q⌋ ≤ 15 := le_trans (min_le_left _ _) (by norm_num [MAX_LIMIT])
        omega
    | some (.num .nan) => norm_num [resolveSearchLimit, DEFAULT_LIMIT]
    | some (.num .posInf) => norm_num [resolveSearchLimit, DEFAULT_LIMIT]
    | some (.num .negInf) => norm_num [resolveSearchLimit, DEFAULT_LIMIT]
    | some .nonNumber => norm_num [resolveSearchLimit, DEFAULT_LIMIT]
    | none => norm_num [resolveSearchLimit, DEFAULT_LIMIT]
  · intro q hq
    subst hq
    show max 1 (min MAX_LIMIT ⌊q⌋) = ⌊max 1 (min 15 q)⌋
    rw [show MAX_LIMIT = 15 from rfl]
    exact floor_clamp_comm q
  · intro hq
    match limitInput with
    | some (.num (.finite q)) => exact absurd rfl (hq q)
    | some (.num .nan) => rfl
    | some (.num .posInf) => rfl
    | some (.num .negInf) => rfl
    | some .nonNumber => rfl
    | none => rfl

/-- C10 witness: a finite limit of 99.7 is clamped to 15, and an absent
limit resolves to the default 4, both within `[1, 15]`. -/
theorem resolveSearchLimit_clamped_witness :
    resolveSearchLimit (some (.num (.finite (997 / 10)))) = ⌊max 1 (min 15 (997 / 10 : ℚ))⌋ ∧
    resolveSearchLimit none = 4 ∧
    1 ≤ resolveSearchLimit (some (.num (.finite (997 / 10)))) :=
  ⟨(resolveSearchLimit_clamped (some (.num (.finite (997 / 10))))).2.2.1 _ rfl,
    (resolveSearchLimit_clamped none).2.2.2 (fun q h => by cases h),
    (resolveSearchLimit_clamped (some (.num (.finite (997 / 10))))).1⟩
